import Mathlib

set_option maxRecDepth 4000

/-!
Verification of the nrdot-mvp reliability components against their
natural-language specification.

The development shallowly embeds the three plugin cores of the repository:

* the Adaptive Priority Queue of plugins/apq/plugin.go,
* the file-backed DLQ store of plugins/dlq (package dlq),
* the CardinalityLimiter processor of plugins/cl.

Go strings are byte sequences, so attribute keys, attribute values, metric
names and file names are modelled as lists of byte values (List Nat).
Go float64 arithmetic on scores and fill ratios is modelled by exact
rational arithmetic; every comparison proved here is far from any rounding
boundary of the corresponding float computation, and the one boundary case
used (a free ratio of exactly 5 / 100) is exact in float64 as well, because
the correctly rounded quotient of 5.0 / 100.0 is the double nearest to
1 / 20, i.e. the literal 0.05 itself.
-/

namespace NRDOT

/-! ## Adaptive Priority Queue (plugins/apq/plugin.go)

Items are opaque payloads, modelled as Nat; in the concrete scenarios the
payload value encodes the class label of the item so that a dequeue trace
shows which class each item came from.  `classifyItem` runs compiled
regular expressions over a string projection of the payload; the claims
fix the class of every enqueued item, so classification is abstracted:
`Enqueue` receives the class index that `classifyItem` would have
returned (always a valid index, since `classifyItem` falls back to
`len(q.queues) - 1`). -/

/-- State of `AdaptivePriorityQueue`: per-class FIFO queues, the configured
capacity and weights, and the scheduler registers `currentClass` and
`remainingTokens` (both int32 in the source; they are never negative, so
Nat is used). -/
structure APQ where
  queues : List (List Nat)
  capacity : Nat
  weights : List Nat
  currentClass : Nat
  remainingTokens : Nat
deriving DecidableEq, Repr

/-- `getTotalSize`: the sum of all per-class queue lengths (source lines
260-267).  `Size()` returns this value under the mutex. -/
def getTotalSize (q : APQ) : Nat :=
  (q.queues.map List.length).sum

/-- Outcome of one `Enqueue` call: the item was admitted to a class queue,
handed to the spill sink, or rejected (spill sink unset, or the sink
returned an error — both surface as a non-nil error to the caller). -/
inductive EnqResult
  | ok
  | spilled
  | rejected
deriving DecidableEq, Repr

/-- `Enqueue` (source lines 148-181).  The Go spill test is
`float64(freeSlots)/float64(q.capacity) < 0.05`; with
`freeSlots = capacity - totalItems` this is modelled exactly as the
rational comparison `20 * freeSlots < capacity` over Int.  `spillSink`
is `none` when `SetSpillFunc` was never called, and `some b` for a sink
whose call succeeds iff `b`; on sink failure `Enqueue` returns an error
(`rejected` here) and the queue is unchanged. -/
def Enqueue (q : APQ) (classIdx : Nat) (item : Nat) (spillSink : Option Bool) :
    APQ × EnqResult :=
  if 20 * ((q.capacity : Int) - (getTotalSize q : Int)) < (q.capacity : Int) then
    match spillSink with
    | some true => (q, EnqResult.spilled)
    | some false => (q, EnqResult.rejected)
    | none => (q, EnqResult.rejected)
  else
    ({ q with queues := q.queues.set classIdx ((q.queues.getD classIdx []) ++ [item]) },
      EnqResult.ok)

/-- The scan loop inside `selectPriorityClass` (source lines 301-318): move
to the next class with wrap-around; stop as soon as the new index equals
the initial class (the loop breaks there even when that class is empty) or
the new index has items.  The loop performs at most `queues.length`
increments before wrapping back to `initial`, so that number is passed as
structural fuel; the fuel-exhausted branch is unreachable. -/
def advanceClass (queues : List (List Nat)) (initial : Nat) : Nat → Nat → Nat
  | 0, cur => cur
  | fuel + 1, cur =>
    let next := (cur + 1) % queues.length
    if next = initial then next
    else if (queues.getD next []).length > 0 then next
    else advanceClass queues initial fuel next

/-- `selectPriorityClass` (source lines 289-325).  When tokens remain for
the current class they are consumed without checking that the class still
has items; otherwise the scan loop advances and the token register is
refilled to `weight[new] - 1`. -/
def selectPriorityClass (q : APQ) : APQ × Nat :=
  if q.remainingTokens > 0 then
    ({ q with remainingTokens := q.remainingTokens - 1 }, q.currentClass)
  else
    ({ q with
        currentClass := advanceClass q.queues q.currentClass q.queues.length q.currentClass,
        remainingTokens :=
          q.weights.getD (advanceClass q.queues q.currentClass q.queues.length q.currentClass) 0
            - 1 },
      advanceClass q.queues q.currentClass q.queues.length q.currentClass)

/-- `Dequeue` (source lines 184-210).  Returns `none` where the source
returns an error: either the whole queue is empty, or the class selected by
`selectPriorityClass` turned out to be empty (the source's defensive
"selected queue is empty" branch); in the latter case the scheduler
registers have already been mutated, exactly as in the source. -/
def Dequeue (q : APQ) : APQ × Option Nat :=
  if getTotalSize q = 0 then (q, none)
  else
    match (selectPriorityClass q).1.queues.getD (selectPriorityClass q).2 [] with
    | [] => ((selectPriorityClass q).1, none)
    | item :: rest =>
      ({ (selectPriorityClass q).1 with
          queues := (selectPriorityClass q).1.queues.set (selectPriorityClass q).2 rest },
        some item)

/-- `NewAdaptivePriorityQueue` (source lines 91-140): fresh empty per-class
queues, `currentClass = 0`, `remainingTokens = 0`.  The constructor rejects
`capacity <= 0` and any `weight <= 0`; theorems that rely on these
validations carry them as hypotheses. -/
def mkAPQ (capacity : Nat) (weights : List Nat) : APQ :=
  { queues := List.replicate weights.length [],
    capacity := capacity,
    weights := weights,
    currentClass := 0,
    remainingTokens := 0 }

/-- A sequence of `Enqueue` calls: each element carries the class index the
item classifies into, the payload, and the spill-sink state at that call. -/
def runEnqueues (q : APQ) (ops : List (Nat × Nat × Option Bool)) : APQ :=
  ops.foldl (fun st op => (Enqueue st op.1 op.2.1 op.2.2).1) q

/-- `n` consecutive `Dequeue` calls, collecting the returned payloads
(`none` marks an error return). -/
def dequeueN : APQ → Nat → APQ × List (Option Nat)
  | q, 0 => (q, [])
  | q, n + 1 =>
    ((dequeueN (Dequeue q).1 n).1, (Dequeue q).2 :: (dequeueN (Dequeue q).1 n).2)

/-- Scenario S1 state: classes A (index 0, weight 3) and B (index 1,
weight 1), capacity 100, ten items enqueued into each class; the payload of
every item is its class index. -/
def apqS1 : APQ :=
  runEnqueues (mkAPQ 100 [3, 1])
    (List.replicate 10 (0, 0, Option.none) ++ List.replicate 10 (1, 1, Option.none))

/-- A small reachable state for the dequeue error analysis: one item in
class 0 (weight 3), two items in class 1 (weight 1), capacity 100. -/
def apqS2 : APQ :=
  runEnqueues (mkAPQ 100 [3, 1])
    [(0, 0, Option.none), (1, 1, Option.none), (1, 1, Option.none)]

/-- A reachable state with free ratio exactly 5 / 100: capacity 20, one
class, 19 items enqueued (every intermediate state has a strictly higher
free ratio, so all 19 are admitted), spill sink set and succeeding. -/
def apqS3 : APQ :=
  runEnqueues (mkAPQ 20 [1]) (List.replicate 19 (0, 0, some true))

/-! ## Durable spill and replay store (plugins/dlq, package dlq)

Byte-level embedding of the segment format.  SHA-256 itself is abstracted
as a byte-stream function `hashFn` (the claims under study concern the
header layout and which bytes are stored and compared, not the digest
values); zstd compression is abstracted by working directly with the
compressed record bytes. -/

/-- ASCII bytes of the segment magic, `magicBytes = "NRDQv1"`. -/
def magicBytes : List Nat := [78, 82, 68, 81, 118, 49]

/-- The `headerSize` constant of the source (line 173): 32 bytes, of which
6 are magic and 8 are the record count, leaving 18 bytes for the hash. -/
def headerSize : Nat := 32

/-- `binary.BigEndian.PutUint32`. -/
def putUint32BE (n : Nat) : List Nat :=
  [n / 2 ^ 24 % 256, n / 2 ^ 16 % 256, n / 2 ^ 8 % 256, n % 256]

/-- `binary.BigEndian.PutUint64`. -/
def putUint64BE (n : Nat) : List Nat :=
  [n / 2 ^ 56 % 256, n / 2 ^ 48 % 256, n / 2 ^ 40 % 256, n / 2 ^ 32 % 256,
   n / 2 ^ 24 % 256, n / 2 ^ 16 % 256, n / 2 ^ 8 % 256, n % 256]

/-- The header bytes written by `finalizeSegment` (source lines 462-491):
magic, the 8-byte big-endian item count, then the digest truncated to
`hashSize = headerSize - len(magicBytes) - len(countBytes) = 32 - 6 - 8`
bytes.  `hash` is the sealing-time digest `fs.hasher.Sum(nil)` (32 bytes
for SHA-256). -/
def finalizeHeader (itemCount : Nat) (hash : List Nat) : List Nat :=
  magicBytes ++ putUint64BE itemCount ++ hash.take (headerSize - magicBytes.length - 8)

/-- A sealed segment file: `finalizeSegment` seeks to offset 0 and
rewrites the header over the placeholder, so the file is the final header
followed by the record stream that `StoreItem` appended. -/
def sealedSegment (itemCount : Nat) (hash stream : List Nat) : List Nat :=
  finalizeHeader itemCount hash ++ stream

/-- The on-disk record stream built by `StoreItem` (source lines 316-358):
for each record, a 4-byte big-endian length prefix followed by the
compressed bytes. -/
def recordStream (records : List (List Nat)) : List Nat :=
  (records.map (fun r => putUint32BE r.length ++ r)).flatten

/-- What the sealing hasher actually receives: `StoreItem` calls
`fs.hasher.Write(compressed)` only, so the length prefixes are not hashed
at sealing time. -/
def sealHashInput (records : List (List Nat)) : List Nat :=
  records.flatten

/-- `verifySegment` (source lines 558-596): read `headerSize` bytes
(failing on a shorter file), check the magic, take
`storedHash = header[len(magicBytes)+8:]`, hash every byte after the
header, and compare `calculatedHash[:len(storedHash)]` with the stored
hash. -/
def verifySegment (hashFn : List Nat → List Nat) (file : List Nat) : Bool :=
  if file.length < headerSize then false
  else if file.take magicBytes.length ≠ magicBytes then false
  else
    (hashFn (file.drop headerSize)).take ((file.take headerSize).drop (magicBytes.length + 8)).length
      == (file.take headerSize).drop (magicBytes.length + 8)

/-- ASCII bytes of the segment filename extension, `.dlq`. -/
def dlqExt : List Nat := [46, 100, 108, 113]

/-- `listSegments` (source lines 494-508): every directory entry whose
name has extension `.dlq`, active segment included — the function does not
consult `fs.currentSegment`.  For names that end in `.dlq` the Go test
`filepath.Ext(name) == ".dlq"` is exactly the suffix test used here. -/
def listSegments (names : List (List Nat)) : List (List Nat) :=
  names.filter (fun n => dlqExt.isSuffixOf n)

/-- A segment file on disk, as seen by replay: its name and the sequence
of record payloads a full read of it yields (zstd decompression is the
identity on this abstraction, the codec being lossless). -/
structure DLQSegmentFile where
  name : List Nat
  records : List (List Nat)
deriving DecidableEq, Repr

/-- The records of the named segment within a directory. -/
def segRecords (dir : List DLQSegmentFile) (name : List Nat) : List (List Nat) :=
  match dir.find? (fun f => f.name == name) with
  | some f => f.records
  | none => []

/-- State of a replay session: the remaining `fs.replayQueue`, the
directory contents, and the payloads handed to the send callback so far. -/
structure ReplayState where
  replayQueue : List (List Nat)
  dir : List DLQSegmentFile
  sent : List (List Nat)
deriving DecidableEq, Repr

/-- One segment's processing inside `replayLoop` (source lines 599-697)
under a callback that always succeeds and an ample token budget:
`processSomeItems` reads the segment to end of file, invoking the callback
on every record, and reports `done`, whereupon the loop pops the segment
from `fs.replayQueue`.  Neither function deletes, renames or truncates any
file — the package contains no file-removal call — so the directory is
passed through unchanged. -/
def replayStep (s : ReplayState) : ReplayState :=
  match s.replayQueue with
  | [] => s
  | seg :: rest =>
    { replayQueue := rest, dir := s.dir, sent := s.sent ++ segRecords s.dir seg }

/-- Iterate `replayStep`. -/
def replayRun : ReplayState → Nat → ReplayState
  | s, 0 => s
  | s, n + 1 => replayRun (replayStep s) n

/-- `StartReplay` (source lines 361-393): the replay queue is initialised
to `listSegments()` — all `.dlq` files of the directory. -/
def StartReplay (dir : List DLQSegmentFile) : ReplayState :=
  { replayQueue := listSegments (dir.map DLQSegmentFile.name), dir := dir, sent := [] }

/-- A complete replay session with an always-successful send callback: the
loop runs until `fs.replayQueue` is empty (one `replayStep` per queued
segment suffices). -/
def replaySession (dir : List DLQSegmentFile) : ReplayState :=
  replayRun (StartReplay dir) (StartReplay dir).replayQueue.length

/-- Concrete directory: a single sealed segment (name bytes "a.dlq")
holding two records. -/
def dlqDir0 : List DLQSegmentFile :=
  [{ name := [97] ++ dlqExt, records := [[1], [2]] }]

/-- Name bytes of the active (unsealed) segment in the two-segment
directory below ("b.dlq"; `rotateSegment` names every segment, active
ones included, with the `.dlq` extension). -/
def activeSegName : List Nat := [98] ++ dlqExt

/-- Concrete directory holding one sealed segment ("a.dlq") and the
active segment. -/
def dlqDir1 : List DLQSegmentFile :=
  [{ name := [97] ++ dlqExt, records := [[1]] }, { name := activeSegName, records := [[9]] }]

/-! ## Cardinality limiter (plugins/cl)

Attribute sets are the ordered (key, stringified-value) pairs of a data
point, each component given by its bytes.  float64 score arithmetic is
modelled over ℚ. -/

/-- `math.Min` on the exact rational model of float64. -/
def goMin (a b : ℚ) : ℚ := if a ≤ b then a else b

/-- The byte count accumulated by `calculateEntropyScore`:
`len(k) + len(v.AsString())` summed over the attributes (Go `len` is the
byte length). -/
def totalChars (attrs : List (List Nat × List Nat)) : Nat :=
  (attrs.map (fun kv => kv.1.length + kv.2.length)).sum

/-- `calculateEntropyScore` (source lines 208-227): 0 for an empty
attribute set, otherwise `min(1, totalChars / (100 + attrCount * 5))`. -/
def calculateEntropyScore (attrs : List (List Nat × List Nat)) : ℚ :=
  if attrs.length = 0 then 0
  else goMin 1 (mkRat (totalChars attrs) (100 + attrs.length * 5))

/-- FNV-1a 64-bit offset basis (hash/fnv). -/
def fnvOffsetBasis : Nat := 14695981039346656037

/-- FNV-1a 64-bit prime (hash/fnv). -/
def fnvPrime : Nat := 1099511628211

/-- One byte of FNV-1a 64: xor, then multiply modulo 2 ^ 64. -/
def fnvStep (h b : Nat) : Nat := ((h ^^^ b) * fnvPrime) % 2 ^ 64

/-- `Write` on an FNV-1a 64 hasher. -/
def fnvWrite (h : Nat) (bytes : List Nat) : Nat := bytes.foldl fnvStep h

/-- `hashAttributes` (source lines 230-251): the keys are collected in map
iteration order and hashed together with their stringified values; the
`sort.Strings(keys)` call present in the source is commented out, so no
reordering happens. -/
def hashAttributes (attrs : List (List Nat × List Nat)) : Nat :=
  attrs.foldl (fun h kv => fnvWrite (fnvWrite h kv.1) kv.2) fnvOffsetBasis

/-- The concatenated key and value bytes of an attribute list, in
iteration order; `hashAttributes` factors through this stream. -/
def attrByteStream (attrs : List (List Nat × List Nat)) : List Nat :=
  (attrs.map (fun kv => kv.1 ++ kv.2)).flatten

/-- Lexicographic order on byte strings, for canonicalisation. -/
def leBytes : List Nat → List Nat → Bool
  | [], _ => true
  | _ :: _, [] => false
  | a :: as, b :: bs => if a < b then true else if b < a then false else leBytes as bs

/-- Insert a pair into a key-sorted list. -/
def insertPair (p : List Nat × List Nat) :
    List (List Nat × List Nat) → List (List Nat × List Nat)
  | [] => [p]
  | q :: rest => if leBytes p.1 q.1 then p :: q :: rest else q :: insertPair p rest

/-- Canonicalisation of an attribute set in the sense of the spec:
its (key, stringified-value) pairs sorted lexicographically by key. -/
def canonicalize (attrs : List (List Nat × List Nat)) : List (List Nat × List Nat) :=
  attrs.foldr insertPair []

/-- A metric data point, reduced to what the limiter reads and writes: its
attribute list. -/
structure DataPoint where
  attrs : List (List Nat × List Nat)
deriving DecidableEq, Repr

/-- `Config` after constructor normalisation (`newCardinalityLimiterProcessor`
replaces non-positive `MaxKeys`, `HighScore`, `CriticalScore` by their
defaults, so `maxKeys` here is the effective positive value). -/
structure CLConfig where
  maxKeys : Nat
  highScore : ℚ
  criticalScore : ℚ
  aggregateLabels : List (List Nat)

/-- Processor state: the bounded key table (`keyMap`, association list of
fingerprint and hit count, one entry per distinct fingerprint) and the
`cl_dropped_samples_total` counter vector, a map from metric name to
count. -/
structure CLState where
  keyMap : List (Nat × Nat)
  droppedSamples : List Nat → Nat

/-- Increment of a labelled Prometheus counter. -/
def incCounter (f : List Nat → Nat) (name : List Nat) : List Nat → Nat :=
  fun m => if m = name then f m + 1 else f m

/-- `p.keyMap[hash]++` on the association-list model: bump the hit count
of an existing entry, or add a fresh entry with count 1. -/
def bumpKey (m : List (Nat × Nat)) (h : Nat) : List (Nat × Nat) :=
  if m.any (fun e => e.1 == h) then
    m.map (fun e => if e.1 == h then (e.1, e.2 + 1) else e)
  else
    m ++ [(h, 1)]

/-- The eviction step `for k := range p.keyMap { delete(p.keyMap, k); break }`:
one entry, chosen by Go's unspecified map iteration order, is removed.
The choice is a parameter `pick`; its value is reduced modulo the table
size so that every choice function denotes a valid entry. -/
def evictOne (pick : List (Nat × Nat) → Nat) (m : List (Nat × Nat)) : List (Nat × Nat) :=
  m.eraseIdx (pick m % m.length)

/-- The action branch of `processDataPoints` (source lines 113-125): at or
above `CriticalScore` the drop counter for the metric is incremented and
the point is left in place (the source only counts; the removal is a
stated future implementation); at or above `HighScore` the
`AggregateLabels` keys are removed from the point's attributes; otherwise
the point passes unchanged. -/
def applyAction (cfg : CLConfig) (metricName : List Nat) (st : CLState) (dp : DataPoint) :
    CLState × DataPoint :=
  if calculateEntropyScore dp.attrs ≥ cfg.criticalScore then
    ({ st with droppedSamples := incCounter st.droppedSamples metricName }, dp)
  else if calculateEntropyScore dp.attrs ≥ cfg.highScore then
    (st, { attrs := dp.attrs.filter (fun kv => !(cfg.aggregateLabels.contains kv.1)) })
  else
    (st, dp)

/-- The key-tracking block of `processDataPoints` (source lines 127-141):
hash the (possibly mutated) attributes, bump the key table, and if the
table now exceeds `MaxKeys`, evict one entry. -/
def trackKey (cfg : CLConfig) (pick : List (Nat × Nat) → Nat) (st : CLState) (dp : DataPoint) :
    CLState :=
  { st with
    keyMap :=
      if (bumpKey st.keyMap (hashAttributes dp.attrs)).length > cfg.maxKeys then
        evictOne pick (bumpKey st.keyMap (hashAttributes dp.attrs))
      else
        bumpKey st.keyMap (hashAttributes dp.attrs) }

/-- One iteration of the loop body of `processDataPoints`. -/
def processPoint (cfg : CLConfig) (pick : List (Nat × Nat) → Nat) (metricName : List Nat)
    (st : CLState) (dp : DataPoint) : CLState × DataPoint :=
  (trackKey cfg pick (applyAction cfg metricName st dp).1 (applyAction cfg metricName st dp).2,
    (applyAction cfg metricName st dp).2)

/-- `processDataPoints` (source lines 110-143): the loop over the data
points of one metric.  The slice is mutated in place — no point is ever
removed — so the returned list has one (possibly label-stripped) point per
input point. -/
def processDataPoints (cfg : CLConfig) (pick : List (Nat × Nat) → Nat) (metricName : List Nat) :
    CLState → List DataPoint → CLState × List DataPoint
  | st, [] => (st, [])
  | st, dp :: rest =>
    ((processDataPoints cfg pick metricName (processPoint cfg pick metricName st dp).1 rest).1,
      (processPoint cfg pick metricName st dp).2 ::
        (processDataPoints cfg pick metricName (processPoint cfg pick metricName st dp).1 rest).2)

/-- `processMetrics` (source lines 76-107), restricted to the number-point
metrics it dispatches to `processDataPoints` (the histogram and summary
branches repeat the identical key-table logic): a batch is a list of
(metric name, data points), processed in order. -/
def processMetrics (cfg : CLConfig) (pick : List (Nat × Nat) → Nat) :
    CLState → List (List Nat × List DataPoint) → CLState × List (List Nat × List DataPoint)
  | st, [] => (st, [])
  | st, m :: rest =>
    ((processMetrics cfg pick (processDataPoints cfg pick m.1 st m.2).1 rest).1,
      (m.1, (processDataPoints cfg pick m.1 st m.2).2) ::
        (processMetrics cfg pick (processDataPoints cfg pick m.1 st m.2).1 rest).2)

/-- A sequence of `processMetrics` calls, as a caller of the processor
observes them. -/
def processBatches (cfg : CLConfig) (pick : List (Nat × Nat) → Nat) (st : CLState)
    (batches : List (List (List Nat × List DataPoint))) : CLState :=
  batches.foldl (fun s b => (processMetrics cfg pick s b).1) st

/-- Freshly constructed processor state: empty key table, zero counters. -/
def clInit : CLState :=
  { keyMap := [], droppedSamples := fun _ => 0 }

/-- The number of points of a batch whose score reaches `CriticalScore`. -/
def countCritical (cfg : CLConfig) (dps : List DataPoint) : Nat :=
  (dps.filter (fun dp => decide (calculateEntropyScore dp.attrs ≥ cfg.criticalScore))).length

/-- Scenario S3 configuration: `max_keys = 2`, `high_score = 2.0`,
`critical_score = 0.5`, no aggregate labels. -/
def cfg6 : CLConfig :=
  { maxKeys := 2, highScore := mkRat 2 1, criticalScore := mkRat 1 2, aggregateLabels := [] }

/-- A data point with one attribute: key "k" and a 60-byte value, giving
score min(1, 61 / 105) which reaches the 0.5 critical threshold. -/
def dp6 : DataPoint :=
  { attrs := [([107], List.replicate 60 120)] }

/-- Attribute list: key "a" value "1", then key "b" value "2". -/
def attrsAB : List (List Nat × List Nat) := [([97], [49]), ([98], [50])]

/-- The same attribute set presented in the opposite iteration order. -/
def attrsBA : List (List Nat × List Nat) := [([98], [50]), ([97], [49])]

/-! ## General lemmas -/

/-- Appending one item to the queue at index `i` grows the total size by at
most one (exactly one when the index is valid; `List.set` out of range is
the identity, a case `classifyItem` never produces). -/
theorem sum_lengths_set_append_le (L : List (List Nat)) (i x : Nat) :
    ((L.set i ((L.getD i []) ++ [x])).map List.length).sum ≤ (L.map List.length).sum + 1 := by
  induction L generalizing i with
  | nil => simp
  | cons hd tl ih =>
    cases i with
    | zero => simp; omega
    | succ n =>
      simp only [List.getD_cons_succ, List.set_cons_succ, List.map_cons, List.sum_cons]
      have := ih n
      omega

/-- Appending one item at a valid index grows the total size by exactly
one. -/
theorem sum_lengths_set_append_eq (L : List (List Nat)) (i x : Nat) (h : i < L.length) :
    ((L.set i ((L.getD i []) ++ [x])).map List.length).sum = (L.map List.length).sum + 1 := by
  induction L generalizing i with
  | nil => simp at h
  | cons hd tl ih =>
    cases i with
    | zero => simp [Nat.add_right_comm]
    | succ n =>
      simp only [List.getD_cons_succ, List.set_cons_succ, List.map_cons, List.sum_cons]
      rw [ih n (by simpa using h)]
      omega

/-- One `Enqueue` call preserves both the capacity field and the size
bound, given the constructor's validation `capacity >= 1`. -/
theorem enqueue_preserves_bound (q : APQ) (c x : Nat) (sink : Option Bool)
    (hcap : 1 ≤ q.capacity) (h : getTotalSize q ≤ q.capacity) :
    getTotalSize (Enqueue q c x sink).1 ≤ q.capacity ∧
    (Enqueue q c x sink).1.capacity = q.capacity := by
  unfold Enqueue
  split
  · cases sink with
    | none => exact ⟨h, rfl⟩
    | some b => cases b with
      | true => exact ⟨h, rfl⟩
      | false => exact ⟨h, rfl⟩
  · rename_i hc
    refine ⟨?_, rfl⟩
    have h2 := sum_lengths_set_append_le q.queues c x
    have h3 : getTotalSize q + 1 ≤ q.capacity := by omega
    have hd : getTotalSize q = (q.queues.map List.length).sum := rfl
    show ((q.queues.set c ((q.queues.getD c []) ++ [x])).map List.length).sum ≤ q.capacity
    omega

/-- A whole sequence of `Enqueue` calls preserves the size bound and the
capacity field. -/
theorem runEnqueues_preserves_bound (ops : List (Nat × Nat × Option Bool)) :
    ∀ q : APQ, 1 ≤ q.capacity → getTotalSize q ≤ q.capacity →
      getTotalSize (runEnqueues q ops) ≤ q.capacity ∧
      (runEnqueues q ops).capacity = q.capacity := by
  induction ops with
  | nil => exact fun q _ h2 => ⟨h2, rfl⟩
  | cons op rest ih =>
    intro q h1 h2
    have hstep := enqueue_preserves_bound q op.1 op.2.1 op.2.2 h1 h2
    have htail := ih (Enqueue q op.1 op.2.1 op.2.2).1
      (by rw [hstep.2]; exact h1) (by rw [hstep.2]; exact hstep.1)
    have heq : runEnqueues q (op :: rest) = runEnqueues (Enqueue q op.1 op.2.1 op.2.2).1 rest :=
      rfl
    rw [heq, htail.2, hstep.2]
    exact ⟨by rw [← hstep.2]; exact htail.1, rfl⟩

/-! ## Claims about the Adaptive Priority Queue -/

/-- C3 counterexample.  The claim expects the first 8 dequeues of scenario
S1 (classes A weight 3 and B weight 1, ten items each, capacity 100) to
come from classes A A A B A A A B.  The code starts with
`remainingTokens = 0`, so the very first `selectPriorityClass` call
advances past class 0 before granting tokens: the observed sequence is
B A A A B A A A. -/
theorem c3_counterexample :
    (dequeueN apqS1 8).2 =
      [some 1, some 0, some 0, some 0, some 1, some 0, some 0, some 0] ∧
    (dequeueN apqS1 8).2 ≠
      [some 0, some 0, some 0, some 1, some 0, some 0, some 0, some 1] := by
  decide

/-- C3 (amended): on scenario S1 the first 8 dequeues return items from
classes B A A A B A A A — the scheduler consumes the stale zero-token
state by advancing to the next class (B) first, and thereafter rotates
with 3 consecutive A picks per single B pick. -/
theorem c3_weighted_fairness_sequence :
    (dequeueN apqS1 8).2 =
      [some 1, some 0, some 0, some 0, some 1, some 0, some 0, some 0] := by
  decide

/-- C4: after one item is enqueued into class 0 (weight 3) and two into
class 1 (weight 1), the first two dequeues drain class 1 then class 0
while leaving `remainingTokens = 2` for class 0; the third `Dequeue` finds
`size() = 1` yet returns the "selected queue is empty" error, because
`selectPriorityClass` hands out the empty current class while tokens
remain.  This contradicts both the spec's scheduler step 1 (which requires
the current class to be non-empty) and the source's own comment that the
selected class cannot be empty. -/
theorem c4_nonempty_dequeue_errors :
    getTotalSize (dequeueN apqS2 2).1 = 1 ∧
    (Dequeue (dequeueN apqS2 2).1).2 = none := by
  decide

/-- C5 counterexample.  In the reachable state with capacity 20 and 19
queued items the free ratio is exactly 5 / 100, and `Enqueue` with a spill
sink set admits the item into the class queue (result Ok, size 20) instead
of spilling: the source spills only on the strict comparison
`freeRatio < 0.05`. -/
theorem c5_counterexample :
    20 * ((apqS3.capacity : Int) - (getTotalSize apqS3 : Int)) = (apqS3.capacity : Int) ∧
    (Enqueue apqS3 0 7 (some true)).2 = EnqResult.ok ∧
    getTotalSize (Enqueue apqS3 0 7 (some true)).1 = 20 := by
  decide

/-- C5 (amended): in every APQ state whose free ratio is exactly 5 / 100
(that is, `20 * (capacity - size) = capacity`), `Enqueue` admits the item
into its class queue and the size grows by one; spilling requires the free
ratio to be strictly below 5 / 100. -/
theorem c5_boundary_ratio_admits (q : APQ) (c x : Nat) (sink : Option Bool)
    (hc : c < q.queues.length)
    (hfree : 20 * ((q.capacity : Int) - (getTotalSize q : Int)) = (q.capacity : Int)) :
    (Enqueue q c x sink).2 = EnqResult.ok ∧
    getTotalSize (Enqueue q c x sink).1 = getTotalSize q + 1 := by
  unfold Enqueue
  have hlt : ¬ 20 * ((q.capacity : Int) - (getTotalSize q : Int)) < (q.capacity : Int) := by
    omega
  rw [if_neg hlt]
  exact ⟨rfl, sum_lengths_set_append_eq q.queues c x hc⟩

/-- Witness for the amended C5 theorem at the concrete boundary state. -/
theorem c5_boundary_ratio_admits_witness :
    (Enqueue apqS3 0 7 (some true)).2 = EnqResult.ok ∧
    getTotalSize (Enqueue apqS3 0 7 (some true)).1 = getTotalSize apqS3 + 1 :=
  c5_boundary_ratio_admits apqS3 0 7 (some true) (by decide) (by decide)

/-- C9: for every sequence of `Enqueue` calls on a freshly constructed
APQ — whatever class each item classifies into and whether or not a spill
sink is set at each call — the total size never exceeds the capacity
(`capacity >= 1` being guaranteed by the constructor's validation). -/
theorem c9_size_never_exceeds_capacity (capacity : Nat) (weights : List Nat)
    (ops : List (Nat × Nat × Option Bool)) (hcap : 1 ≤ capacity) :
    getTotalSize (runEnqueues (mkAPQ capacity weights) ops) ≤ capacity := by
  have h0 : getTotalSize (mkAPQ capacity weights) = 0 := by
    simp [getTotalSize, mkAPQ]
  exact (runEnqueues_preserves_bound ops (mkAPQ capacity weights) hcap (by omega)).1

/-- Witness for C9: a capacity-3 queue receiving four enqueues (the last
one spills) ends with at most 3 items. -/
theorem c9_size_never_exceeds_capacity_witness :
    getTotalSize (runEnqueues (mkAPQ 3 [1])
      [(0, 0, Option.none), (0, 1, Option.none), (0, 2, Option.none), (0, 3, some true)]) ≤ 3 :=
  c9_size_never_exceeds_capacity 3 [1]
    [(0, 0, Option.none), (0, 1, Option.none), (0, 2, Option.none), (0, 3, some true)]
    (by decide)

/-! ## Claims about the DLQ store -/

/-- C1 counterexample.  With a 32-byte digest, the header written by
`finalizeSegment` is 32 bytes long, not 46, and the hash field starting at
offset 14 holds only the first 18 digest bytes, not all 32: the source's
`headerSize` is 32 and `hashSize = 32 - 6 - 8 = 18`. -/
theorem c1_counterexample :
    (finalizeHeader 5 (List.range 32)).length = 32 ∧
    ¬ (finalizeHeader 5 (List.range 32)).length = 46 ∧
    (finalizeHeader 5 (List.range 32)).drop 14 = (List.range 32).take 18 ∧
    ¬ (finalizeHeader 5 (List.range 32)).drop 14 = List.range 32 := by
  decide

/-- C1 (amended): every sealed segment begins with a 32-byte header — the
6-byte magic, the 8-byte big-endian record count, and, at offset 14, the
first 18 bytes of the 32-byte SHA-256 digest computed at sealing time;
verification succeeds exactly when the first 18 bytes of the digest it
recomputes over the bytes after the header match those stored 18 bytes. -/
theorem c1_sealed_header_layout (hashFn : List Nat → List Nat) (count : Nat)
    (hash stream : List Nat) (hlen : hash.length = 32) :
    (finalizeHeader count hash).length = headerSize ∧
    (finalizeHeader count hash).take 6 = magicBytes ∧
    (finalizeHeader count hash).drop 14 = hash.take 18 ∧
    (verifySegment hashFn (sealedSegment count hash stream) = true ↔
      (hashFn stream).take 18 = hash.take 18) := by
  have h18 : headerSize - magicBytes.length - 8 = 18 := rfl
  have hlen1 : (finalizeHeader count hash).length = 32 := by
    simp only [finalizeHeader, h18, List.length_append, List.length_take, hlen]
    simp [magicBytes, putUint64BE]
  have htake6 : (finalizeHeader count hash).take 6 = magicBytes := by
    unfold finalizeHeader
    rw [h18, List.append_assoc, show (6 : Nat) = magicBytes.length from rfl]
    exact List.take_left _ _
  have hdrop14 : (finalizeHeader count hash).drop 14 = hash.take 18 := by
    unfold finalizeHeader
    rw [h18, show (14 : Nat) = (magicBytes ++ putUint64BE count).length from rfl]
    exact List.drop_left _ _
  refine ⟨by rw [hlen1]; rfl, htake6, hdrop14, ?_⟩
  have hflen : (finalizeHeader count hash ++ stream).length = 32 + stream.length := by
    rw [List.length_append, hlen1]
  show verifySegment hashFn (finalizeHeader count hash ++ stream) = true ↔ _
  unfold verifySegment
  rw [if_neg (by rw [hflen]; show ¬ 32 + stream.length < 32; omega)]
  have ht : (finalizeHeader count hash ++ stream).take magicBytes.length = magicBytes := by
    rw [List.take_append_of_le_length (by rw [hlen1]; show magicBytes.length ≤ 32; decide)]
    rw [show magicBytes.length = 6 from rfl]
    exact htake6
  rw [if_neg (by rw [ht]; exact fun hne => hne rfl)]
  have hdropH : (finalizeHeader count hash ++ stream).drop headerSize = stream := by
    rw [show (headerSize : Nat) = (finalizeHeader count hash).length from hlen1.symm]
    exact List.drop_left _ _
  have htakeH : (finalizeHeader count hash ++ stream).take headerSize = finalizeHeader count hash := by
    rw [show (headerSize : Nat) = (finalizeHeader count hash).length from hlen1.symm]
    exact List.take_left _ _
  rw [hdropH, htakeH, show magicBytes.length + 8 = 14 from rfl, hdrop14]
  have hlen18 : (hash.take 18).length = 18 := by
    rw [List.length_take, hlen]
    omega
  rw [hlen18]
  simp

/-- Witness for the amended C1 theorem: a concrete 32-byte digest, count 7
and a 3-byte record stream. -/
theorem c1_sealed_header_layout_witness :
    (finalizeHeader 7 (List.range 32)).length = headerSize ∧
    (finalizeHeader 7 (List.range 32)).take 6 = magicBytes ∧
    (finalizeHeader 7 (List.range 32)).drop 14 = (List.range 32).take 18 ∧
    (verifySegment (fun _ => List.range 32)
        (sealedSegment 7 (List.range 32) [1, 2, 3]) = true ↔
      ((fun _ => List.range 32) ([1, 2, 3] : List Nat) : List Nat).take 18 =
        (List.range 32).take 18) :=
  c1_sealed_header_layout (fun _ => List.range 32) 7 (List.range 32) [1, 2, 3] (by simp)

/-- Running `replayLoop` to completion pops every queued segment, sends
all of their records, and leaves the directory exactly as it was. -/
theorem replayRun_complete (q : List (List Nat)) (dir : List DLQSegmentFile)
    (sent0 : List (List Nat)) :
    replayRun { replayQueue := q, dir := dir, sent := sent0 } q.length =
      { replayQueue := [], dir := dir, sent := sent0 ++ (q.map (segRecords dir)).flatten } := by
  induction q generalizing sent0 with
  | nil => simp [replayRun]
  | cons seg rest ih =>
    show replayRun { replayQueue := seg :: rest, dir := dir, sent := sent0 } (rest.length + 1) = _
    rw [replayRun]
    rw [show replayStep { replayQueue := seg :: rest, dir := dir, sent := sent0 } =
        { replayQueue := rest, dir := dir, sent := sent0 ++ segRecords dir seg } from rfl]
    rw [ih]
    simp [List.append_assoc]

/-- C2 counterexample.  A directory with one sealed segment "a.dlq"
holding two records: a replay session in which the send callback succeeds
on every record delivers both records, yet the directory afterwards still
contains one `.dlq` file, not zero — `replayLoop` and `processSomeItems`
never delete a segment file. -/
theorem c2_counterexample :
    (replaySession dlqDir0).sent = [[1], [2]] ∧
    (replaySession dlqDir0).dir = dlqDir0 ∧
    (listSegments ((replaySession dlqDir0).dir.map DLQSegmentFile.name)).length = 1 ∧
    ¬ (listSegments ((replaySession dlqDir0).dir.map DLQSegmentFile.name)).length = 0 := by
  decide

/-- C2 (amended): a replay session never deletes any file: after a
session in which the send callback succeeds on every record, the directory
is unchanged — it still contains every `.dlq` segment file it started
with — while the records of all enumerated segments have been driven
through the callback in order. -/
theorem c2_replay_deletes_nothing (dir : List DLQSegmentFile) :
    (replaySession dir).dir = dir ∧
    (replaySession dir).replayQueue = [] ∧
    (replaySession dir).sent =
      ((listSegments (dir.map DLQSegmentFile.name)).map (segRecords dir)).flatten := by
  unfold replaySession StartReplay
  rw [replayRun_complete]
  exact ⟨rfl, rfl, by simp⟩

/-- C8 counterexample.  In a directory holding a sealed segment "a.dlq"
and the active segment "b.dlq" (the file `rotateSegment` keeps open for
appends), `StartReplay` enqueues the active segment as well, and the
session drives the active segment's record through the send callback. -/
theorem c8_counterexample :
    activeSegName ∈ (StartReplay dlqDir1).replayQueue ∧
    (replaySession dlqDir1).sent = [[1], [9]] := by
  decide

/-- C8 (amended): the replay queue built by `StartReplay` is
`listSegments()`, which enumerates every `.dlq` file of the directory with
no exclusion of the active segment (only the periodic verification loop
skips `fs.currentSegment`); any `.dlq`-named file present in the
directory — the active segment included — is queued for replay. -/
theorem c8_active_segment_enumerated (dir : List DLQSegmentFile) (active : List Nat)
    (hmem : active ∈ dir.map DLQSegmentFile.name)
    (hext : dlqExt.isSuffixOf active = true) :
    active ∈ (StartReplay dir).replayQueue := by
  show active ∈ (dir.map DLQSegmentFile.name).filter (fun n => dlqExt.isSuffixOf n)
  exact List.mem_filter.mpr ⟨hmem, hext⟩

/-- Witness for the amended C8 theorem at the two-segment directory. -/
theorem c8_active_segment_enumerated_witness :
    activeSegName ∈ (StartReplay dlqDir1).replayQueue :=
  c8_active_segment_enumerated dlqDir1 activeSegName (by decide) (by decide)

/-! ## Claims about the cardinality limiter -/

/-- The action branch never touches the key table. -/
theorem applyAction_keyMap (cfg : CLConfig) (name : List Nat) (st : CLState) (dp : DataPoint) :
    (applyAction cfg name st dp).1.keyMap = st.keyMap := by
  unfold applyAction
  split
  · rfl
  · split <;> rfl

/-- The drop counters after the action branch: incremented for the metric
iff the score reached `CriticalScore`. -/
theorem applyAction_dropped (cfg : CLConfig) (name : List Nat) (st : CLState) (dp : DataPoint) :
    (applyAction cfg name st dp).1.droppedSamples =
      if calculateEntropyScore dp.attrs ≥ cfg.criticalScore then
        incCounter st.droppedSamples name
      else st.droppedSamples := by
  unfold applyAction
  by_cases h : calculateEntropyScore dp.attrs ≥ cfg.criticalScore
  · rw [if_pos h, if_pos h]
  · rw [if_neg h, if_neg h]
    split <;> rfl

/-- Key tracking never touches the drop counters. -/
theorem trackKey_dropped (cfg : CLConfig) (pick : List (Nat × Nat) → Nat) (st : CLState)
    (dp : DataPoint) :
    (trackKey cfg pick st dp).droppedSamples = st.droppedSamples :=
  rfl

/-- The drop counters across one whole loop iteration. -/
theorem processPoint_dropped (cfg : CLConfig) (pick : List (Nat × Nat) → Nat)
    (name : List Nat) (st : CLState) (dp : DataPoint) :
    (processPoint cfg pick name st dp).1.droppedSamples =
      if calculateEntropyScore dp.attrs ≥ cfg.criticalScore then
        incCounter st.droppedSamples name
      else st.droppedSamples := by
  unfold processPoint
  rw [trackKey_dropped, applyAction_dropped]

/-- C6 counterexample.  Scenario S3 thresholds (`critical_score = 0.5`)
and a point whose single attribute has a 60-byte value: the point's score
reaches the critical threshold and `dropped_samples_total` for its metric
is incremented, yet the returned batch still contains the point unchanged
— the code only counts the drop, it does not remove the point, so the
batch is not smaller. -/
theorem c6_counterexample :
    (processDataPoints cfg6 (fun _ => 0) [109] clInit [dp6]).2 = [dp6] ∧
    (processDataPoints cfg6 (fun _ => 0) [109] clInit [dp6]).2.length = 1 ∧
    (processDataPoints cfg6 (fun _ => 0) [109] clInit [dp6]).1.droppedSamples [109] = 1 := by
  decide

/-- C6 (amended): for every batch, `processDataPoints` returns exactly as
many points as it received — points at or above `CriticalScore` are never
removed — and the metric's `dropped_samples_total` counter grows by
exactly the number of points whose score reached `CriticalScore`. -/
theorem c6_criticals_counted_not_removed (cfg : CLConfig) (pick : List (Nat × Nat) → Nat)
    (name : List Nat) :
    ∀ (dps : List DataPoint) (st : CLState),
      (processDataPoints cfg pick name st dps).2.length = dps.length ∧
      (processDataPoints cfg pick name st dps).1.droppedSamples name =
        st.droppedSamples name + countCritical cfg dps := by
  intro dps
  induction dps with
  | nil =>
    intro st
    exact ⟨rfl, by simp [processDataPoints, countCritical]⟩
  | cons dp rest ih =>
    intro st
    constructor
    · simp only [processDataPoints, List.length_cons]
      rw [(ih _).1]
    · simp only [processDataPoints]
      rw [(ih _).2, processPoint_dropped]
      by_cases hc : calculateEntropyScore dp.attrs ≥ cfg.criticalScore
      · rw [if_pos hc]
        have hcount : countCritical cfg (dp :: rest) = countCritical cfg rest + 1 := by
          simp [countCritical, List.filter_cons, hc]
        rw [hcount]
        simp [incCounter]
        omega
      · rw [if_neg hc]
        have hcount : countCritical cfg (dp :: rest) = countCritical cfg rest := by
          simp [countCritical, List.filter_cons, hc]
        rw [hcount]

/-- C7 counterexample.  The attribute sets {a: "1", b: "2"} and
{b: "2", a: "1"} have the same canonicalisation (the same key-sorted
pairs), yet `hashAttributes` gives them different fingerprints, because
the keys are hashed in map-iteration order — the sorting step is commented
out in the source. -/
theorem c7_counterexample :
    canonicalize attrsAB = canonicalize attrsBA ∧
    hashAttributes attrsAB ≠ hashAttributes attrsBA := by
  decide

/-- Folding FNV-1a over the (key, value) pairs is the same as hashing the
concatenated byte stream. -/
theorem fnv_foldl_pairs (attrs : List (List Nat × List Nat)) (h0 : Nat) :
    attrs.foldl (fun h kv => fnvWrite (fnvWrite h kv.1) kv.2) h0 =
      fnvWrite h0 (attrByteStream attrs) := by
  induction attrs generalizing h0 with
  | nil => rfl
  | cons kv rest ih =>
    simp only [List.foldl_cons]
    rw [ih]
    have hs : attrByteStream (kv :: rest) = (kv.1 ++ kv.2) ++ attrByteStream rest := by
      simp [attrByteStream]
    rw [hs]
    simp [fnvWrite, List.foldl_append]

/-- C7 (amended): the fingerprint is a function of the concatenated key
and value bytes in map-iteration order — two attribute lists collide
whenever those byte streams are equal, but equality of canonicalisation
alone does not make the fingerprints equal. -/
theorem c7_fingerprint_of_byte_stream (a b : List (List Nat × List Nat))
    (h : attrByteStream a = attrByteStream b) :
    hashAttributes a = hashAttributes b := by
  unfold hashAttributes
  rw [fnv_foldl_pairs, fnv_foldl_pairs, h]

/-- Witness for the amended C7 theorem: {ab: "c"} and {a: "bc"} share the
byte stream "abc" and indeed share the fingerprint. -/
theorem c7_fingerprint_of_byte_stream_witness :
    hashAttributes [([97, 98], [99])] = hashAttributes [([97], [98, 99])] :=
  c7_fingerprint_of_byte_stream [([97, 98], [99])] [([97], [98, 99])] (by decide)

/-- Bumping a key grows the table by at most one entry. -/
theorem bumpKey_length_le (m : List (Nat × Nat)) (h : Nat) :
    (bumpKey m h).length ≤ m.length + 1 := by
  unfold bumpKey
  split
  · simp
  · simp

/-- Evicting from a non-empty table removes exactly one entry. -/
theorem evictOne_length (pick : List (Nat × Nat) → Nat) (m : List (Nat × Nat))
    (hpos : 0 < m.length) :
    (evictOne pick m).length = m.length - 1 := by
  unfold evictOne
  have hlt : pick m % m.length < m.length := Nat.mod_lt _ hpos
  have := List.length_eraseIdx_add_one hlt
  omega

/-- One key-tracking step keeps the table within `MaxKeys`. -/
theorem trackKey_keyMap_le (cfg : CLConfig) (pick : List (Nat × Nat) → Nat) (st : CLState)
    (dp : DataPoint) (h : st.keyMap.length ≤ cfg.maxKeys) :
    (trackKey cfg pick st dp).keyMap.length ≤ cfg.maxKeys := by
  unfold trackKey
  show (if (bumpKey st.keyMap (hashAttributes dp.attrs)).length > cfg.maxKeys then
      evictOne pick (bumpKey st.keyMap (hashAttributes dp.attrs))
    else bumpKey st.keyMap (hashAttributes dp.attrs)).length ≤ cfg.maxKeys
  split
  · rename_i hgt
    rw [evictOne_length _ _ (by omega)]
    have hb := bumpKey_length_le st.keyMap (hashAttributes dp.attrs)
    omega
  · rename_i hng
    omega

/-- One loop iteration keeps the table within `MaxKeys`. -/
theorem processPoint_keyMap_le (cfg : CLConfig) (pick : List (Nat × Nat) → Nat)
    (name : List Nat) (st : CLState) (dp : DataPoint) (h : st.keyMap.length ≤ cfg.maxKeys) :
    (processPoint cfg pick name st dp).1.keyMap.length ≤ cfg.maxKeys := by
  unfold processPoint
  exact trackKey_keyMap_le cfg pick _ _ (by rw [applyAction_keyMap]; exact h)

/-- Processing the points of one metric keeps the table within
`MaxKeys`. -/
theorem processDataPoints_keyMap_le (cfg : CLConfig) (pick : List (Nat × Nat) → Nat)
    (name : List Nat) :
    ∀ (dps : List DataPoint) (st : CLState), st.keyMap.length ≤ cfg.maxKeys →
      (processDataPoints cfg pick name st dps).1.keyMap.length ≤ cfg.maxKeys := by
  intro dps
  induction dps with
  | nil => intro st h; exact h
  | cons dp rest ih =>
    intro st h
    simp only [processDataPoints]
    exact ih _ (processPoint_keyMap_le cfg pick name st dp h)

/-- Processing one whole batch keeps the table within `MaxKeys`. -/
theorem processMetrics_keyMap_le (cfg : CLConfig) (pick : List (Nat × Nat) → Nat) :
    ∀ (batch : List (List Nat × List DataPoint)) (st : CLState),
      st.keyMap.length ≤ cfg.maxKeys →
      (processMetrics cfg pick st batch).1.keyMap.length ≤ cfg.maxKeys := by
  intro batch
  induction batch with
  | nil => intro st h; exact h
  | cons m rest ih =>
    intro st h
    simp only [processMetrics]
    exact ih _ (processDataPoints_keyMap_le cfg pick m.1 m.2 st h)

/-- C10: for every sequence of batches processed by a freshly constructed
cardinality limiter with effective `max_keys = K`, the key table — and
hence the `keys_used` gauge read from its size at the end of each
`processMetrics` call — never exceeds K entries at any method boundary,
whichever entry Go's map iteration offers to the eviction step. -/
theorem c10_key_table_bounded (cfg : CLConfig) (pick : List (Nat × Nat) → Nat)
    (batches : List (List (List Nat × List DataPoint))) :
    (processBatches cfg pick clInit batches).keyMap.length ≤ cfg.maxKeys := by
  have hall : ∀ (bs : List (List (List Nat × List DataPoint))) (st : CLState),
      st.keyMap.length ≤ cfg.maxKeys →
      (processBatches cfg pick st bs).keyMap.length ≤ cfg.maxKeys := by
    intro bs
    induction bs with
    | nil => intro st h; exact h
    | cons b rest ih =>
      intro st h
      exact ih _ (processMetrics_keyMap_le cfg pick b st h)
  exact hall batches clInit (by simp [clInit])

end NRDOT
